import Mathlib

/-
Shallow embedding of the position-lifecycle engine of `pump_fun_bot.py`
(the screening chain, `buy_token`, `sell_token`, `monitor_price`,
`monitor_and_trade`).  Prices and quantities are modelled as exact
rationals; the in-memory dict `open_positions` (line 78) becomes an
association list keyed by the token address.  Each venue interaction
(order-book read, order submission) is passed in as an explicit
parameter describing its outcome, and a Python exception raised inside
the blanket try/except of a function is modelled by returning that
function's failure result at the corresponding program point.
-/

/-- Slippage tolerance, source line 56: `SLIPPAGE_PERCENT = 1` (percent). -/
def SLIPPAGE_PERCENT : ℚ := 1

/-- Profit target, source line 59: `PROFIT_MULTIPLIER = 5`. -/
def PROFIT_MULTIPLIER : ℚ := 5

/-- Per-purchase budget, source line 422: `amount_sol = 0.01`. -/
def AMOUNT_SOL : ℚ := 1/100

/-- One entry of `open_positions` (line 78):
`{'initial_price': float, 'amount': float}`. -/
structure Position where
  initial_price : ℚ
  amount : ℚ
deriving DecidableEq, Repr

/-- The `open_positions` dict, as an association list keyed by address. -/
abbrev Ledger := List (String × Position)

/-- Python `a in open_positions` / dict lookup. -/
def lookupAddr (l : Ledger) (a : String) : Option Position :=
  match l with
  | [] => none
  | e :: rest => if e.1 = a then some e.2 else lookupAddr rest a

/-- Python membership test `token['contract_address'] in open_positions`
(line 417). -/
def containsAddr (l : Ledger) (a : String) : Bool :=
  (lookupAddr l a).isSome

/-- Python `del open_positions[a]` (line 333): removes the entry keyed `a`. -/
def eraseKey (l : Ledger) (a : String) : Ledger :=
  match l with
  | [] => []
  | e :: rest => if e.1 = a then eraseKey rest a else e :: eraseKey rest a

/-- Python dict assignment `open_positions[a] = p` (lines 273-276): the map
that sends `a` to `p` and every other key to its old value. -/
def setKey (l : Ledger) (a : String) (p : Position) : Ledger :=
  (a, p) :: eraseKey l a

/-- A token candidate as produced by `fetch_new_tokens` (lines 131-154).
`launch_time` is in seconds (a POSIX-style timestamp). -/
structure Token where
  name : String
  contract_address : String
  launch_time : ℚ
  market_cap : ℚ
  has_live_streams : Bool
deriving DecidableEq, Repr

/-- `time_since_launch` (lines 116-122): hours between `now` and the launch
timestamp, both in seconds. -/
def time_since_launch (now launch_time : ℚ) : ℚ :=
  (now - launch_time) / 3600

/-- Outcome of one `buy_token` call (lines 231-285).  `retval` is the Python
return value; `ledger` is `open_positions` after the call; `submitAttempted`
records whether control reached the order-submission call (lines 256-269);
`orderPlaced` records whether `send_transaction` succeeded. -/
structure BuyResult where
  retval : Bool
  ledger : Ledger
  submitAttempted : Bool
  orderPlaced : Bool
deriving DecidableEq, Repr

/-- `buy_token` (lines 231-285).  `topBid` is the result of
`bids.top_bid()` (`none` = empty book, line 238); `submitOk` tells whether
`send_transaction` (line 269) succeeds or raises.  A top bid of price zero
makes `quantity = amount_sol / price` (line 244) raise `ZeroDivisionError`,
caught by the blanket `except` (line 282), hence the explicit zero branch.
The position insert (lines 273-276) happens only after a successful
submission; there is no duplicate-position check inside this function. -/
def buy_token (ledger : Ledger) (addr : String) (amount_sol : ℚ)
    (topBid : Option ℚ) (submitOk : Bool) : BuyResult :=
  match topBid with
  | none => ⟨false, ledger, false, false⟩
  | some price =>
    if price = 0 then
      ⟨false, ledger, false, false⟩
    else
      let quantity := amount_sol / price
      if submitOk then
        ⟨true, setKey ledger addr ⟨price, quantity⟩, true, true⟩
      else
        ⟨false, ledger, true, false⟩

/-- The advisory minimum quantity computed at lines 247-248:
`quantity - quantity * (SLIPPAGE_PERCENT / 100)`. -/
def min_quantity (quantity : ℚ) : ℚ :=
  quantity - quantity * (SLIPPAGE_PERCENT / 100)

/-- Outcome of one `sell_token` call (lines 287-342), with the same
reading of the fields as in `BuyResult`. -/
structure SellResult where
  retval : Bool
  ledger : Ledger
  submitAttempted : Bool
  orderPlaced : Bool
deriving DecidableEq, Repr

/-- `sell_token` (lines 287-342).  `topAsk` is `asks.top_ask()` (`none` =
empty book, line 297); `submitOk` tells whether `send_transaction`
(line 329) succeeds.  Below-target asks return `False` before any
submission (lines 302-304).  `del open_positions[addr]` (line 333) runs
only after a successful submission; when the address is absent it raises
`KeyError`, caught by the blanket `except` (line 339), so the function
returns `False` with the order already placed. -/
def sell_token (ledger : Ledger) (addr : String) (initial_price amount_tokens : ℚ)
    (topAsk : Option ℚ) (submitOk : Bool) : SellResult :=
  let target_price := initial_price * PROFIT_MULTIPLIER
  match topAsk with
  | none => ⟨false, ledger, false, false⟩
  | some current_price =>
    if current_price < target_price then
      ⟨false, ledger, false, false⟩
    else if submitOk then
      if containsAddr ledger addr then
        ⟨true, eraseKey ledger addr, true, true⟩
      else
        ⟨false, ledger, true, true⟩
    else
      ⟨false, ledger, true, false⟩

/-- The screening chain of `monitor_and_trade` (lines 389-419), applied to
one candidate: age window, market-cap window, live-stream exclusion,
rug-pull check, social-media check, and finally the duplicate-position
check against `open_positions`.  `rug_safe` and `has_social` are the
results of the two collaborator calls (fail-closed booleans).  Returns
`true` exactly when control reaches the buy (line 423). -/
def screen_candidate (ledger : Ledger) (token : Token) (now : ℚ)
    (rug_safe has_social : Bool) : Bool :=
  let age_hours := time_since_launch now token.launch_time
  if ¬(5 ≤ age_hours ∧ age_hours ≤ 10) then false
  else if ¬(5000 ≤ token.market_cap ∧ token.market_cap ≤ 10000) then false
  else if token.has_live_streams then false
  else if ¬rug_safe then false
  else if ¬has_social then false
  else if containsAddr ledger token.contract_address then false
  else true

/-- Global state of the engine: the ledger plus the set of active
`monitor_price` tasks.  A monitor is identified by the address it watches
together with the `initial_price` and `amount` it read from the ledger
once at spawn time (lines 348-350). -/
structure Sys where
  ledger : Ledger
  monitors : List (String × ℚ × ℚ)
deriving DecidableEq, Repr

/-- One candidate iteration of `monitor_and_trade` (lines 388-426): screen
the candidate; when it passes, call `buy_token`, and on a `True` return
spawn a `monitor_price` task seeded from the fresh ledger entry
(lines 424-426, 348-350).  The second component reports whether `buy_token`
was invoked. -/
def monitor_and_trade_step (s : Sys) (token : Token) (now : ℚ)
    (rug_safe has_social : Bool) (topBid : Option ℚ) (submitOk : Bool) :
    Sys × Bool :=
  if screen_candidate s.ledger token now rug_safe has_social then
    let r := buy_token s.ledger token.contract_address AMOUNT_SOL topBid submitOk
    if r.retval then
      match lookupAddr r.ledger token.contract_address with
      | some p =>
        (⟨r.ledger, (token.contract_address, p.initial_price, p.amount) :: s.monitors⟩, true)
      | none => (⟨r.ledger, s.monitors⟩, true)
    else
      (⟨r.ledger, s.monitors⟩, true)
  else
    (s, false)

/-- One iteration of the `while True` loop of `monitor_price`
(lines 354-379) for the monitor seeded with `(addr, initial_price, amount)`.
An empty ask book or a below-target ask leaves everything unchanged (the
task sleeps and stays watching).  When the ask reaches
`initial_price * PROFIT_MULTIPLIER` (line 368) the task calls `sell_token`
and then `break`s (line 372) regardless of the sell outcome, so the
monitor is removed from the active set in both cases. -/
def monitor_price_tick (s : Sys) (addr : String) (initial_price amount : ℚ)
    (topAsk : Option ℚ) (submitOk : Bool) : Sys :=
  match topAsk with
  | none => s
  | some current_price =>
    if initial_price * PROFIT_MULTIPLIER ≤ current_price then
      let r := sell_token s.ledger addr initial_price amount (some current_price) submitOk
      ⟨r.ledger, s.monitors.erase (addr, initial_price, amount)⟩
    else
      s

/-- The events the engine can perform: processing one discovery candidate,
or one tick of an active monitor. -/
inductive Step : Sys → Sys → Prop
  | candidate (s : Sys) (token : Token) (now : ℚ)
      (rug_safe has_social : Bool) (topBid : Option ℚ) (submitOk : Bool) :
      Step s (monitor_and_trade_step s token now rug_safe has_social topBid submitOk).1
  | tick (s : Sys) (addr : String) (p0 amt : ℚ) (topAsk : Option ℚ) (submitOk : Bool)
      (hmem : (addr, p0, amt) ∈ s.monitors) :
      Step s (monitor_price_tick s addr p0 amt topAsk submitOk)

/-- States reachable from the initial empty state (`open_positions = {}`,
no monitor running). -/
inductive Reachable : Sys → Prop
  | init : Reachable ⟨[], []⟩
  | step {s t : Sys} : Reachable s → Step s t → Reachable t

/-- The client identifier attached to every order submission,
`client_id=int(time.time())` (lines 263 and 323): the wall-clock time in
seconds, truncated to a whole number (times are nonnegative, so Python
`int` truncation is the floor). -/
def order_client_id (t : ℚ) : ℤ :=
  ⌊t⌋

/-- The ledger-monitor correspondence maintained by the engine: every
active monitor points at a ledger entry matching its seed, and no address
has two active monitors. -/
def SysInv (s : Sys) : Prop :=
  (∀ m ∈ s.monitors, lookupAddr s.ledger m.1 = some ⟨m.2.1, m.2.2⟩) ∧
  (s.monitors.map Prod.fst).Nodup

/-- A concrete candidate that passes every screening step at `now = 6` hours
after launch: market cap 7000, no live streams. -/
def tokA : Token := ⟨"T", "A", 0, 7000, false⟩

/-- The state after `tokA` is bought at bid price 1 with budget
`AMOUNT_SOL`: one position and its freshly spawned monitor. -/
def sMid : Sys := ⟨[("A", ⟨1, 1/100⟩)], [("A", 1, 1/100)]⟩

/-- The state after the monitor of `sMid` sees the ask hit the 5x target
but the sell submission fails: the monitor has terminated, the ledger
still holds the position. -/
def sOrphan : Sys := ⟨[("A", ⟨1, 1/100⟩)], []⟩

/- Ledger lemmas -/

theorem lookupAddr_eraseKey_self (l : Ledger) (a : String) :
    lookupAddr (eraseKey l a) a = none := by
  induction l with
  | nil => rfl
  | cons e rest ih =>
    by_cases he : e.1 = a
    · simp [eraseKey, he, ih]
    · simp [eraseKey, he, lookupAddr, ih]

theorem lookupAddr_eraseKey_ne (l : Ledger) {a b : String} (h : a ≠ b) :
    lookupAddr (eraseKey l b) a = lookupAddr l a := by
  induction l with
  | nil => rfl
  | cons e rest ih =>
    have hba : ¬(b = a) := fun hba => h hba.symm
    by_cases he : e.1 = b
    · have hea : ¬(e.1 = a) := fun hea => h ((hea ▸ he : a = b))
      simp [eraseKey, he, lookupAddr, hea, hba, ih]
    · by_cases hea : e.1 = a
      · simp [eraseKey, he, lookupAddr, hea, h, hba]
      · simp [eraseKey, he, lookupAddr, hea, h, hba, ih]

theorem lookupAddr_setKey_self (l : Ledger) (a : String) (p : Position) :
    lookupAddr (setKey l a p) a = some p := by
  simp [setKey, lookupAddr]

theorem lookupAddr_setKey_ne (l : Ledger) {a b : String} (p : Position) (h : a ≠ b) :
    lookupAddr (setKey l b p) a = lookupAddr l a := by
  have hba : ¬(b = a) := fun hba => h hba.symm
  simp [setKey, lookupAddr, hba, lookupAddr_eraseKey_ne l h]

theorem containsAddr_eraseKey_self (l : Ledger) (a : String) :
    containsAddr (eraseKey l a) a = false := by
  simp [containsAddr, lookupAddr_eraseKey_self]

/- Characterizations of the buy and sell paths -/

theorem buy_token_cases (L : Ledger) (addr : String) (amt : ℚ)
    (bid : Option ℚ) (ok : Bool) :
    ((buy_token L addr amt bid ok).retval = false ∧
      (buy_token L addr amt bid ok).ledger = L ∧
      (buy_token L addr amt bid ok).orderPlaced = false) ∨
    (∃ price, bid = some price ∧ price ≠ 0 ∧ ok = true ∧
      buy_token L addr amt bid ok =
        ⟨true, setKey L addr ⟨price, amt / price⟩, true, true⟩) := by
  cases bid with
  | none => exact Or.inl ⟨rfl, rfl, rfl⟩
  | some price =>
    by_cases hp : price = 0
    · exact Or.inl (by simp [buy_token, hp])
    · cases ok with
      | false => exact Or.inl (by simp [buy_token, hp])
      | true => exact Or.inr ⟨price, rfl, hp, rfl, by simp [buy_token, hp]⟩

theorem sell_token_ledger_cases (L : Ledger) (addr : String) (p0 amt : ℚ)
    (ask : Option ℚ) (ok : Bool) :
    (sell_token L addr p0 amt ask ok).ledger = L ∨
    (sell_token L addr p0 amt ask ok).ledger = eraseKey L addr := by
  cases ask with
  | none => exact Or.inl rfl
  | some q =>
    by_cases hq : q < p0 * PROFIT_MULTIPLIER
    · exact Or.inl (by simp [sell_token, hq])
    · cases ok with
      | false => exact Or.inl (by simp [sell_token, hq])
      | true =>
        by_cases hc : containsAddr L addr
        · exact Or.inr (by simp [sell_token, hq, hc])
        · exact Or.inl (by simp [sell_token, hq, hc])

theorem screen_not_contains {L : Ledger} {tok : Token} {now : ℚ} {rs hs : Bool}
    (h : screen_candidate L tok now rs hs = true) :
    containsAddr L tok.contract_address = false := by
  unfold screen_candidate at h
  split_ifs at h <;> simp_all

theorem containsAddr_false_iff (l : Ledger) (a : String) :
    containsAddr l a = false ↔ lookupAddr l a = none := by
  cases h : lookupAddr l a <;> simp [containsAddr, h]

theorem monitor_and_trade_step_cases (s : Sys) (tok : Token) (now : ℚ)
    (rs hs : Bool) (bid : Option ℚ) (ok : Bool) :
    (monitor_and_trade_step s tok now rs hs bid ok).1 = s ∨
    (∃ price : ℚ, price ≠ 0 ∧
      screen_candidate s.ledger tok now rs hs = true ∧
      (monitor_and_trade_step s tok now rs hs bid ok).1 =
        ⟨setKey s.ledger tok.contract_address ⟨price, AMOUNT_SOL / price⟩,
         (tok.contract_address, price, AMOUNT_SOL / price) :: s.monitors⟩) := by
  by_cases hscr : screen_candidate s.ledger tok now rs hs = true
  · rcases buy_token_cases s.ledger tok.contract_address AMOUNT_SOL bid ok with
      ⟨hret, hled, _⟩ | ⟨price, hbid, hp, hok, heq⟩
    · left
      simp [monitor_and_trade_step, hscr, hret, hled]
    · right
      exact ⟨price, hp, hscr,
        by simp [monitor_and_trade_step, hscr, heq, lookupAddr_setKey_self]⟩
  · left
    simp [monitor_and_trade_step, hscr]

theorem sysInv_candidate {s : Sys} (hInv : SysInv s) (tok : Token) (now : ℚ)
    (rs hs : Bool) (bid : Option ℚ) (ok : Bool) :
    SysInv (monitor_and_trade_step s tok now rs hs bid ok).1 := by
  rcases monitor_and_trade_step_cases s tok now rs hs bid ok with heq | ⟨price, hp, hscr, heq⟩
  · rw [heq]; exact hInv
  · rw [heq]
    have hnone : lookupAddr s.ledger tok.contract_address = none :=
      (containsAddr_false_iff _ _).mp (screen_not_contains hscr)
    constructor
    · intro m hm
      rcases List.mem_cons.mp hm with rfl | hm'
      · simpa using lookupAddr_setKey_self s.ledger tok.contract_address _
      · have hold := hInv.1 m hm'
        have hne : m.1 ≠ tok.contract_address := by
          intro hcontr
          rw [hcontr, hnone] at hold
          exact Option.noConfusion hold
        rw [lookupAddr_setKey_ne _ _ hne]
        exact hold
    · simp only [List.map_cons]
      rw [List.nodup_cons]
      refine ⟨?_, hInv.2⟩
      intro hmemk
      rcases List.mem_map.mp hmemk with ⟨m, hm', hfst⟩
      have hold := hInv.1 m hm'
      rw [hfst, hnone] at hold
      exact Option.noConfusion hold

theorem sysInv_tick {s : Sys} (hInv : SysInv s) (addr : String) (p0 amt : ℚ)
    (ask : Option ℚ) (ok : Bool) (hmem : (addr, p0, amt) ∈ s.monitors) :
    SysInv (monitor_price_tick s addr p0 amt ask ok) := by
  cases ask with
  | none => exact hInv
  | some q =>
    by_cases hq : p0 * PROFIT_MULTIPLIER ≤ q
    · have hstate : monitor_price_tick s addr p0 amt (some q) ok =
          ⟨(sell_token s.ledger addr p0 amt (some q) ok).ledger,
           s.monitors.erase (addr, p0, amt)⟩ := by
        simp [monitor_price_tick, hq]
      rw [hstate]
      have hnodup' : ((s.monitors.erase (addr, p0, amt)).map Prod.fst).Nodup :=
        List.Nodup.sublist ((List.erase_sublist _ _).map Prod.fst) hInv.2
      refine ⟨?_, hnodup'⟩
      intro m hm
      replace hm : m ∈ s.monitors.erase (addr, p0, amt) := hm
      have hm' : m ∈ s.monitors := List.mem_of_mem_erase hm
      rcases sell_token_ledger_cases s.ledger addr p0 amt (some q) ok with hL | hL
      · rw [hL]; exact hInv.1 m hm'
      · rw [hL]
        have hmoNodup : s.monitors.Nodup := List.Nodup.of_map Prod.fst hInv.2
        have hne_elt : m ≠ (addr, p0, amt) := ((hmoNodup.mem_erase_iff).mp hm).1
        have hne : m.1 ≠ addr := by
          intro h1
          exact hne_elt (List.inj_on_of_nodup_map hInv.2 hm' hmem h1)
        rw [lookupAddr_eraseKey_ne _ hne]
        exact hInv.1 m hm'
    · simpa [monitor_price_tick, hq] using hInv

theorem sysInv_reachable {s : Sys} (h : Reachable s) : SysInv s := by
  induction h with
  | init => exact ⟨by simp, by simp⟩
  | step _ hst ih =>
    cases hst with
    | candidate tok now rs hs bid ok => exact sysInv_candidate ih tok now rs hs bid ok
    | tick addr p0 amt ask ok hmem => exact sysInv_tick ih addr p0 amt ask ok hmem

/- Concrete reachable states: buying tokA at bid 1, then one monitor tick
at ask 5 whose sell submission fails. -/

theorem reachable_sMid : Reachable sMid := by
  have h1 : (monitor_and_trade_step ⟨[], []⟩ tokA (6*3600) true true (some 1) true).1 =
      sMid := by
    norm_num [monitor_and_trade_step, screen_candidate, time_since_launch, tokA,
      containsAddr, lookupAddr, buy_token, AMOUNT_SOL, setKey, eraseKey, sMid]
  exact h1 ▸ Reachable.step Reachable.init
    (Step.candidate ⟨[], []⟩ tokA (6*3600) true true (some 1) true)

theorem reachable_sOrphan : Reachable sOrphan := by
  have h2 : monitor_price_tick sMid "A" 1 (1/100) (some 5) false = sOrphan := by
    norm_num [monitor_price_tick, PROFIT_MULTIPLIER, sell_token, sMid, sOrphan,
      List.erase]
  exact h2 ▸ Reachable.step reachable_sMid
    (Step.tick sMid "A" 1 (1/100) (some 5) false (by simp [sMid]))

/-- Claim C1, counterexample: `buy_token` itself enforces no
duplicate-position precondition.  Invoked directly for an address that
already has an open position (initial price 1, amount 5), with a live bid
at price 2 and a successful submission, it returns `True` and writes the
ledger entry (overwriting the old position), instead of rejecting the
call as already open. -/
theorem buy_token_inserts_when_open :
    (buy_token [("A", ⟨1, 5⟩)] "A" (1/100) (some 2) true).retval = true ∧
    (buy_token [("A", ⟨1, 5⟩)] "A" (1/100) (some 2) true).ledger ≠ [("A", ⟨1, 5⟩)] := by
  norm_num [buy_token, setKey, eraseKey]

/-- Claim C1, amended: the duplicate-position check lives only in the
caller `monitor_and_trade` (line 417), not inside `buy_token`.  When the
candidate's address already has an open position, the per-candidate loop
iteration invokes no buy and leaves the whole state unchanged, so in the
sequential discovery loop at most the first successful buy for an address
inserts. -/
theorem duplicate_guard_in_caller (s : Sys) (tok : Token) (now : ℚ)
    (rs hs : Bool) (bid : Option ℚ) (ok : Bool)
    (h : containsAddr s.ledger tok.contract_address = true) :
    monitor_and_trade_step s tok now rs hs bid ok = (s, false) := by
  have hscr : screen_candidate s.ledger tok now rs hs = false := by
    unfold screen_candidate
    split_ifs <;> simp_all
  simp [monitor_and_trade_step, hscr]

/-- Witness for `duplicate_guard_in_caller` at the concrete state `sMid`
that already holds a position for address A. -/
theorem duplicate_guard_in_caller_witness :
    monitor_and_trade_step sMid tokA (6*3600) true true (some 2) true = (sMid, false) :=
  duplicate_guard_in_caller sMid tokA (6*3600) true true (some 2) true
    (by simp [sMid, tokA, containsAddr, lookupAddr])

/-- Claim C2, counterexample: the ledger/monitor correspondence is not an
invariant of the reachable states.  After a buy and one monitor tick whose
triggered sell submission fails, the state `sOrphan` is reachable: the
position for address A is still in the ledger, but no monitor task is
active for it (the monitor terminated after its single sell attempt). -/
theorem orphaned_position_reachable :
    Reachable sOrphan ∧ containsAddr sOrphan.ledger "A" = true ∧
    sOrphan.monitors = [] :=
  ⟨reachable_sOrphan, by simp [sOrphan, containsAddr, lookupAddr], rfl⟩

/-- Claim C2, amended: only one direction of the correspondence holds at
every reachable state: every active monitor watches an address whose
position is in the ledger (and the ledger entry still matches the values
the monitor was seeded with).  The converse fails: when a monitor
terminates after a failed sell, the ledger retains the entry (orphaned
position). -/
theorem monitor_implies_ledger {s : Sys} (hr : Reachable s) (a : String)
    (p0 amt : ℚ) (hm : (a, p0, amt) ∈ s.monitors) :
    lookupAddr s.ledger a = some ⟨p0, amt⟩ :=
  (sysInv_reachable hr).1 (a, p0, amt) hm

/-- Witness for `monitor_implies_ledger` at the reachable state `sMid`. -/
theorem monitor_implies_ledger_witness :
    lookupAddr sMid.ledger "A" = some ⟨1, 1/100⟩ :=
  monitor_implies_ledger reachable_sMid "A" 1 (1/100) (by simp [sMid])

/-- Claim C3: buy failure is atomic with respect to the ledger.  Whenever
`buy_token` returns `False` — empty bid book, zero-price bid raising
`ZeroDivisionError`, or a failing venue submission — the ledger is exactly
the one passed in, and no order was placed. -/
theorem buy_failure_ledger_unchanged (L : Ledger) (addr : String) (amt : ℚ)
    (bid : Option ℚ) (ok : Bool)
    (h : (buy_token L addr amt bid ok).retval = false) :
    (buy_token L addr amt bid ok).ledger = L ∧
    (buy_token L addr amt bid ok).orderPlaced = false := by
  rcases buy_token_cases L addr amt bid ok with ⟨_, hled, hpl⟩ | ⟨price, _, _, _, heq⟩
  · exact ⟨hled, hpl⟩
  · rw [heq] at h
    exact absurd h (by simp)

/-- Witness for `buy_failure_ledger_unchanged`: an empty bid book. -/
theorem buy_failure_ledger_unchanged_witness :
    (buy_token [("B", ⟨1, 2⟩)] "A" (1/100) none true).ledger = [("B", ⟨1, 2⟩)] ∧
    (buy_token [("B", ⟨1, 2⟩)] "A" (1/100) none true).orderPlaced = false :=
  buy_failure_ledger_unchanged [("B", ⟨1, 2⟩)] "A" (1/100) none true rfl

/-- Claim C4: the sell trigger boundary is inclusive, and below-target is
a negative decision rather than a failure.  With an ask `q` available, the
order submission is attempted exactly when `q` is at least
`initial_price * PROFIT_MULTIPLIER` (so the boundary itself triggers);
strictly below the target, `sell_token` returns `False` having submitted
nothing and leaving the ledger exactly unchanged. -/
theorem sell_trigger_boundary (L : Ledger) (addr : String) (p0 amt q : ℚ)
    (ok : Bool) :
    ((sell_token L addr p0 amt (some q) ok).submitAttempted = true ↔
      p0 * PROFIT_MULTIPLIER ≤ q) ∧
    (q < p0 * PROFIT_MULTIPLIER →
      sell_token L addr p0 amt (some q) ok = ⟨false, L, false, false⟩) := by
  by_cases hq : q < p0 * PROFIT_MULTIPLIER
  · exact ⟨by simp [sell_token, hq, not_le.mpr hq], fun _ => by simp [sell_token, hq]⟩
  · have hle := not_lt.mp hq
    refine ⟨?_, fun hlt => absurd hlt hq⟩
    cases ok with
    | false => simp [sell_token, hq, hle]
    | true => by_cases hc : containsAddr L addr <;> simp [sell_token, hq, hc, hle]

/-- Witness for `sell_trigger_boundary`: with initial price 2 the target
is 10; at ask exactly 10 the submission is attempted, while at
10 - 1/1000000 the call is the no-op negative decision. -/
theorem sell_trigger_boundary_witness :
    ((sell_token [("A", ⟨2, 3⟩)] "A" 2 3 (some 10) true).submitAttempted = true ↔
      (2 : ℚ) * PROFIT_MULTIPLIER ≤ 10) ∧
    sell_token [("A", ⟨2, 3⟩)] "A" 2 3 (some (10 - 1/1000000)) true =
      ⟨false, [("A", ⟨2, 3⟩)], false, false⟩ :=
  ⟨(sell_trigger_boundary [("A", ⟨2, 3⟩)] "A" 2 3 10 true).1,
   (sell_trigger_boundary [("A", ⟨2, 3⟩)] "A" 2 3 (10 - 1/1000000) true).2
     (by norm_num [PROFIT_MULTIPLIER])⟩

/-- Claim C5: for a sell invoked on an open position at or above target,
venue acceptance removes exactly that position from the ledger (and the
address is indeed gone), while a failing submission leaves the ledger
entry exactly as it was, available for a later retry. -/
theorem sell_success_removes_failure_retains (L : Ledger) (addr : String)
    (p0 amt q : ℚ) (hopen : containsAddr L addr = true)
    (htrig : p0 * PROFIT_MULTIPLIER ≤ q) :
    sell_token L addr p0 amt (some q) true = ⟨true, eraseKey L addr, true, true⟩ ∧
    containsAddr (eraseKey L addr) addr = false ∧
    sell_token L addr p0 amt (some q) false = ⟨false, L, true, false⟩ := by
  have hq : ¬(q < p0 * PROFIT_MULTIPLIER) := not_lt.mpr htrig
  exact ⟨by simp [sell_token, hq, hopen], containsAddr_eraseKey_self L addr,
    by simp [sell_token, hq]⟩

/-- Witness for `sell_success_removes_failure_retains` on a ledger holding
one position for address A at initial price 1, ask 5. -/
theorem sell_success_removes_failure_retains_witness :
    sell_token [("A", ⟨1, 2⟩)] "A" 1 2 (some 5) true = ⟨true, [], true, true⟩ ∧
    containsAddr (eraseKey [("A", ⟨1, 2⟩)] "A") "A" = false ∧
    sell_token [("A", ⟨1, 2⟩)] "A" 1 2 (some 5) false =
      ⟨false, [("A", ⟨1, 2⟩)], true, false⟩ := by
  have h := sell_success_removes_failure_retains [("A", ⟨1, 2⟩)] "A" 1 2 5
    (by simp [containsAddr, lookupAddr]) (by norm_num [PROFIT_MULTIPLIER])
  simpa [eraseKey] using h

/-- Claim C6: every candidate whose age in hours (derived as
`now - launch_time` converted to hours) lies outside the inclusive window
[5, 10] is rejected by the screening chain, and the loop iteration invokes
no buy and changes nothing, regardless of all other candidate fields. -/
theorem age_window_rejects (s : Sys) (tok : Token) (now : ℚ) (rs hs : Bool)
    (bid : Option ℚ) (ok : Bool)
    (h : time_since_launch now tok.launch_time < 5 ∨
         10 < time_since_launch now tok.launch_time) :
    screen_candidate s.ledger tok now rs hs = false ∧
    monitor_and_trade_step s tok now rs hs bid ok = (s, false) := by
  have hcond : ¬(5 ≤ time_since_launch now tok.launch_time ∧
      time_since_launch now tok.launch_time ≤ 10) := by
    rintro ⟨h1, h2⟩
    rcases h with h | h <;> linarith
  have hscr : screen_candidate s.ledger tok now rs hs = false := by
    simp [screen_candidate, hcond]
  exact ⟨hscr, by simp [monitor_and_trade_step, hscr]⟩

/-- Witness for `age_window_rejects`: `tokA` (market cap 7000, no live
streams) observed 12 hours after launch is rejected with no buy. -/
theorem age_window_rejects_witness :
    screen_candidate (⟨[], []⟩ : Sys).ledger tokA (12*3600) true true = false ∧
    monitor_and_trade_step ⟨[], []⟩ tokA (12*3600) true true (some 1) true =
      (⟨[], []⟩, false) :=
  age_window_rejects ⟨[], []⟩ tokA (12*3600) true true (some 1) true
    (Or.inr (by norm_num [time_since_launch, tokA]))

/-- Claim C8, counterexample: the client identifier generator
`int(time.time())` is not collision-free.  Two distinct submissions inside
the same wall-clock second — here at times 100.2 and 100.7 — receive the
same client identifier. -/
theorem client_id_collision_same_second :
    order_client_id (100 + 1/5) = order_client_id (100 + 7/10) ∧
    (100 + 1/5 : ℚ) ≠ 100 + 7/10 := by
  norm_num [order_client_id]

/-- Claim C8, amended: client identifiers are the submission time in whole
seconds, so they are distinct (indeed strictly increasing) for submissions
at least one second apart, but submissions within the same whole second
collide. -/
theorem client_id_distinct_across_seconds (t1 t2 : ℚ) (h : t1 + 1 ≤ t2) :
    order_client_id t1 < order_client_id t2 := by
  unfold order_client_id
  calc ⌊t1⌋ < ⌊t1⌋ + 1 := lt_add_one _
    _ = ⌊t1 + 1⌋ := (Int.floor_add_one t1).symm
    _ ≤ ⌊t2⌋ := Int.floor_le_floor h

/-- Witness for `client_id_distinct_across_seconds` at times 10.5 and 12. -/
theorem client_id_distinct_across_seconds_witness :
    order_client_id (10 + 1/2) < order_client_id 12 :=
  client_id_distinct_across_seconds (10 + 1/2) 12 (by norm_num)

/-- Claim C9: selling for an address with no ledger entry while the ask
meets the target still submits the venue order; only afterwards does
`del open_positions[...]` raise `KeyError`, so `sell_token` reports
failure with the order already placed and the ledger unchanged. -/
theorem sell_absent_position_submits_then_fails (L : Ledger) (addr : String)
    (p0 amt q : ℚ) (habs : containsAddr L addr = false)
    (htrig : p0 * PROFIT_MULTIPLIER ≤ q) :
    sell_token L addr p0 amt (some q) true = ⟨false, L, true, true⟩ := by
  have hq : ¬(q < p0 * PROFIT_MULTIPLIER) := not_lt.mpr htrig
  simp [sell_token, hq, habs]

/-- Witness for `sell_absent_position_submits_then_fails`: empty ledger,
target met at ask 5. -/
theorem sell_absent_position_submits_then_fails_witness :
    sell_token [] "A" 1 2 (some 5) true = ⟨false, [], true, true⟩ :=
  sell_absent_position_submits_then_fails [] "A" 1 2 5 rfl
    (by norm_num [PROFIT_MULTIPLIER])

/-- Claim C10: `buy_token` is total at its interface even for a zero
top-of-book bid.  The division `amount_sol / price` raises
`ZeroDivisionError`, the blanket handler catches it, and the call returns
failure with no submission attempted and the ledger exactly unchanged —
no exception propagates out. -/
theorem buy_zero_bid_total (L : Ledger) (addr : String) (amt : ℚ) (ok : Bool) :
    buy_token L addr amt (some 0) ok = ⟨false, L, false, false⟩ := by
  simp [buy_token]
